import Mathlib

/-!
# A verification development for the mirrorlist generator

Shallow embedding of github.com/enindu/mirrorlist: a pacman mirror list
generator that fetches a list of candidate mirror URLs, probes each mirror
with a fixed number of sequential HTTP GET requests, averages the measured
round-trip times, sorts the successful mirrors ascending by average latency
and emits the fastest `count` of them.

The repository carries several variants of `main.go`:
* the flagship variant (files `part_000` / `part_001`): `ping` prober,
  channel of `mirror` values, insufficiency check, `slices.SortFunc`
  comparing `x.time` with `y.time`, output to stdout or a file;
* a middle variant of `main.go` whose sort comparator reads
  `cmp.Compare(x.duration, x.duration)` (compares `x` with itself);
* an old variant of `main.go` that stores probed mirrors in a
  `map[float64]string` keyed by the measured latency.

Durations are modelled as natural numbers of nanoseconds (Go's
`time.Duration` is an integer nanosecond count, and `time.Since` on the
monotonic clock is non-negative); the float64 arithmetic of
`end.Seconds() / float64(pings)` is modelled exactly over `ℚ`.
-/

/-- HTTP 200, `http.StatusOK` in Go's `net/http`. -/
def httpStatusOK : Nat := 200

/-- Outcome of a single HTTP GET issued by `ping` against a mirror URL, as
observed by the surrounding code: either the request errors (`client.Get`
returns a non-nil error, which includes a timeout expiry), or a response
arrives carrying an HTTP status code, with `elapsedNs` the measured
`time.Since(begin)` round trip in nanoseconds. -/
inductive Attempt where
  | fault : Attempt
  | response (statusCode : Nat) (elapsedNs : Nat) : Attempt
deriving DecidableEq

/-- An attempt makes `ping` return early exactly when the request errored or
the response status code was not `http.StatusOK`. -/
def attemptFails : Attempt → Bool
  | Attempt.fault => true
  | Attempt.response code _ => code ≠ httpStatusOK

/-- The accumulation loop of `ping` (part_000 lines 197-215, part_001 lines
228-246): `pingAccum attempts i n` runs the loop body for iterations
`i, i+1, ..., i+n-1`, where `attempts k` is the outcome the network produces
for the k-th GET. It returns the accumulated total round-trip time `end` in
nanoseconds, or `none` if some attempt errored or returned a non-200 status,
which in the source makes `ping` return before issuing further requests. -/
def pingAccum (attempts : Nat → Attempt) (i : Nat) : Nat → Option Nat
  | 0 => some 0
  | n + 1 =>
    match attempts i with
    | Attempt.fault => none
    | Attempt.response code d =>
      if code ≠ httpStatusOK then none
      else
        match pingAccum attempts (i + 1) n with
        | none => none
        | some rest => some (d + rest)

/-- Number of GET requests the `ping` loop actually issues when run for up to
`n` iterations starting at iteration `i`: the loop stops issuing requests
right after the first failing attempt (the `return` statements inside the
loop body). -/
def usedFrom (attempts : Nat → Attempt) (i : Nat) : Nat → Nat
  | 0 => 0
  | n + 1 =>
    if attemptFails (attempts i) then 1
    else 1 + usedFrom attempts (i + 1) n

/-- Number of GET requests `ping` issues for a whole run with the given
`-pings` flag value: the Go loop `for i := 0; i < pings; i++` performs
`max pings 0` iterations at most. -/
def attemptsUsed (pings : Int) (attempts : Nat → Attempt) : Nat :=
  usedFrom attempts 0 pings.toNat

/-- `Duration.Seconds()` for a nanosecond count, modelled exactly over `ℚ`. -/
def nsToSeconds (n : Nat) : ℚ :=
  (n : ℚ) / 1000000000

/-- The `mirror` record of the flagship variant (part_000): a mirror base URL
together with its average measured latency in seconds. -/
structure Mirror where
  link : String
  time : ℚ
deriving DecidableEq

/-- The `ping` function (part_000 lines 192-228, part_001 lines 223-256):
issues up to `pings` GET requests, aborts on the first failure, and on full
success emits a `mirror` whose `time` is `end.Seconds() / float64(pings)`
unless the accumulated total is zero. part_000 tests `end <= 0` and part_001
tests `end == 0`; on nanosecond counts in `ℕ` the two tests agree.
The result is `some m` when the source sends `m` into the mirrors channel and
`none` when the source returns without sending. -/
def ping (l : String) (pings : Int) (attempts : Nat → Attempt) : Option Mirror :=
  match pingAccum attempts 0 pings.toNat with
  | none => none
  | some endNs =>
    if endNs = 0 then none
    else some { link := l, time := nsToSeconds endNs / (pings : ℚ) }

/-- The failure report emitted when fewer mirrors than requested succeeded:
part_000 line 157, `erro.Print("could not get %d mirror(s)\n", *count)`.
The format string receives the requested count as its only argument. -/
def insufficientMessage (count : Nat) : String :=
  "could not get " ++ toString count ++ " mirror(s)\n"

/-- The failure report emitted when the output file cannot be created
(part_000 line 175). -/
def couldNotCreateMessage (path : String) : String :=
  "could not create " ++ path ++ "\n"

/-- The sort order used by the flagship variant's ranking step:
`slices.SortFunc(mirrors, func(x, y mirror) int { return cmp.Compare(x.time, y.time) })`
(part_000 lines 166-168). -/
def mirrorLE (x y : Mirror) : Prop :=
  x.time ≤ y.time

instance : DecidableRel mirrorLE :=
  fun x y => inferInstanceAs (Decidable (x.time ≤ y.time))

instance : IsTotal Mirror mirrorLE :=
  ⟨fun x y => le_total x.time y.time⟩

instance : IsTrans Mirror mirrorLE :=
  ⟨fun _ _ _ hxy hyz => le_trans hxy hyz⟩

/-- The sorting step of the flagship variant: a deterministic comparison sort
ascending by `time`. Go's `slices.SortFunc` is an unstable but deterministic
sort; the embedding fixes one deterministic sort consistent with the
comparator. -/
def sortMirrors (ms : List Mirror) : List Mirror :=
  List.insertionSort mirrorLE ms

/-- The ranking step of the flagship variant (part_000 lines 155-184):
if fewer successful results than `count` arrived, report the failure
(`erro.Print`) and return without any selection; otherwise sort ascending by
time and keep the first `count` (`mirrors[:*count]`). -/
def rank (ms : List Mirror) (count : Nat) : Except String (List Mirror) :=
  if ms.length < count then Except.error (insufficientMessage count)
  else Except.ok ((sortMirrors ms).take count)

/-- Observable I/O effects of the tail of `main` in part_000, in program
order: the failure report, the opening of the `-output` file, one
`# latency` + `Server = ...` line pair per selected mirror, the generator
footer line, and informational prints. -/
inductive Effect where
  | erroPrint (msg : String) : Effect
  | openOutput (path : String) : Effect
  | writeMirror (m : Mirror) : Effect
  | writeFooter : Effect
  | infoPrint (msg : String) : Effect
deriving DecidableEq

/-- The tail of `main` in part_000 (lines 155-189), from the insufficiency
check to the information messages, as the list of effects it performs.
`successes` is the content of the closed mirrors channel, `outputFlag` the
`-output` flag value (empty means stdout) and `openFails` tells whether
`os.OpenFile` would fail. The insufficiency check (line 156) runs before the
output destination is opened (line 173). -/
def mainTail (successes : List Mirror) (count : Nat) (outputFlag : String)
    (openFails : Bool) : List Effect :=
  if successes.length < count then
    [Effect.erroPrint (insufficientMessage count)]
  else
    let sorted := sortMirrors successes
    let body : List Effect :=
      (sorted.take count).map Effect.writeMirror ++
        [Effect.writeFooter, Effect.infoPrint ("mirror list is generated\n")]
    if outputFlag = "" then body
    else if openFails then
      [Effect.openOutput outputFlag, Effect.erroPrint (couldNotCreateMessage outputFlag)]
    else Effect.openOutput outputFlag :: body

/-- The `mirror` record of the middle variant of `main.go`. -/
structure MirrorB where
  url : String
  duration : ℚ
deriving DecidableEq

/-- The comparator the middle variant of `main.go` passes to
`slices.SortFunc` (lines 229-231 of that variant):
`cmp.Compare(x.duration, x.duration)` — both arguments are `x.duration`,
so every comparison reports equality and the sort never reorders. -/
def compareDurationSelf (x y : MirrorB) : Prop :=
  x.duration ≤ x.duration

instance : DecidableRel compareDurationSelf :=
  fun x _ => inferInstanceAs (Decidable (x.duration ≤ x.duration))

/-- The sorting step of the middle variant of `main.go`: a stable sort under
a comparator that reports every pair equal, hence the identity permutation. -/
def sortMirrorsB (ms : List MirrorB) : List MirrorB :=
  List.insertionSort compareDurationSelf ms

/-- The selection step of the middle variant of `main.go` (lines 228-236 of
that variant): sort with the self-comparing comparator, take the first
`count` (`mirrors[:*countFlag]`; that variant has no insufficiency check). -/
def rankB (ms : List MirrorB) (count : Nat) : List MirrorB :=
  (sortMirrorsB ms).take count

/-- The intended per-claim order on the middle variant's mirrors: ascending
by measured duration (what the comment `Sort mirrors by duration` above the
comparator, the spec and the other variants all ask for). -/
def mirrorBLE (x y : MirrorB) : Prop :=
  x.duration ≤ y.duration

instance : DecidableRel mirrorBLE :=
  fun x y => inferInstanceAs (Decidable (x.duration ≤ y.duration))

/-- Go map assignment `m[k] = v` on `map[float64]string`: overwrite the entry
if the key is present, create it otherwise. The association list keeps
insertion order only as bookkeeping; the old variant always sorts the key set
before using it, so iteration order of the Go map is irrelevant. -/
def goMapInsert (m : List (ℚ × String)) (k : ℚ) (v : String) : List (ℚ × String) :=
  if k ∈ m.map Prod.fst then m.map (fun p => if p.1 = k then (k, v) else p)
  else m ++ [(k, v)]

/-- The probing loop of the old variant of `main.go` (lines 67-94 of that
variant): for each mirror in order, skip it on a request error or when the
measured time reached `maxTime`; break once the map holds `count` entries;
otherwise store the mirror under its measured time as the map key.
`probes` pairs each mirror with `none` (request error) or `some end`
(measured seconds). -/
def buildLoop (maxTime : ℚ) (count : Nat) :
    List (String × Option ℚ) → List (ℚ × String) → List (ℚ × String)
  | [], acc => acc
  | (m, res) :: rest, acc =>
    match res with
    | none => buildLoop maxTime count rest acc
    | some endT =>
      if endT ≥ maxTime then buildLoop maxTime count rest acc
      else if acc.length = count then acc
      else if endT < maxTime then buildLoop maxTime count rest (goMapInsert acc endT m)
      else buildLoop maxTime count rest acc

/-- The `sortedMirrors` map of the old variant after its probing loop. -/
def sortedMirrorsMap (probes : List (String × Option ℚ)) (maxTime : ℚ)
    (count : Nat) : List (ℚ × String) :=
  buildLoop maxTime count probes []

/-- Go map read `m[k]` on `map[float64]string` (zero value on a missing
key). -/
def mapLookup (m : List (ℚ × String)) (k : ℚ) : String :=
  match m.find? (fun p => p.1 == k) with
  | some p => p.2
  | none => ""

/-- `sort.Float64s` over the collected keys: ascending order on `ℚ`. -/
def ratLE (a b : ℚ) : Prop :=
  a ≤ b

instance : DecidableRel ratLE :=
  fun a b => inferInstanceAs (Decidable (a ≤ b))

/-- The mirrors printed by the old variant of `main.go` (lines 96-109 of that
variant): collect the keys of `sortedMirrors`, sort them ascending, and print
`sortedMirrors[t]` for each sorted key `t`. -/
def variantAOutput (probes : List (String × Option ℚ)) (maxTime : ℚ)
    (count : Nat) : List String :=
  let sm := sortedMirrorsMap probes maxTime count
  let executionTimes := sm.map Prod.fst
  let sorted := List.insertionSort ratLE executionTimes
  sorted.map (mapLookup sm)

/-- File-system semantics of the Emitter's output path: `os.OpenFile(path,
os.O_CREATE|os.O_WRONLY, 0644)` opens without `O_TRUNC`, so an existing
file keeps its bytes, and the subsequent `WriteString`/`Fprintf` calls write
the emitted bytes from offset 0 over them. The resulting file content is the
newly written bytes followed by whatever tail of the old content lies beyond
their length. -/
def writeNoTrunc (old written : List Char) : List Char :=
  written ++ old.drop written.length

/-- The `ping` loop returns early as soon as one attempt in its window fails:
no accumulated total is produced. -/
theorem pingAccum_none_of_fail (attempts : Nat → Attempt) :
    ∀ n i j : Nat, j < n → attemptFails (attempts (i + j)) = true →
      pingAccum attempts i n = none := by
  intro n
  induction n with
  | zero => intro i j hj; omega
  | succ n ih =>
    intro i j hj hfail
    cases ha : attempts i with
    | fault => simp [pingAccum, ha]
    | response code d =>
      by_cases hcode : code = httpStatusOK
      · have hj0 : j ≠ 0 := by
          intro h0
          subst h0
          rw [Nat.add_zero, ha] at hfail
          simp [attemptFails, hcode] at hfail
        obtain ⟨j', rfl⟩ : ∃ j', j = j' + 1 := ⟨j - 1, by omega⟩
        have hrec := ih (i + 1) j' (by omega)
          (by rw [show i + 1 + j' = i + (j' + 1) by omega]; exact hfail)
        simp [pingAccum, ha, hcode, hrec]
      · simp [pingAccum, ha, hcode]

/-- When the first failing attempt of the window is the j-th one, the loop
issues exactly j + 1 GET requests: the failing one is the last issued. -/
theorem usedFrom_eq_of_first_fail (attempts : Nat → Attempt) :
    ∀ n i j : Nat, j < n → attemptFails (attempts (i + j)) = true →
      (∀ k < j, attemptFails (attempts (i + k)) = false) →
      usedFrom attempts i n = j + 1 := by
  intro n
  induction n with
  | zero => intro i j hj; omega
  | succ n ih =>
    intro i j hj hfail hfirst
    by_cases hj0 : j = 0
    · subst hj0
      rw [Nat.add_zero] at hfail
      simp [usedFrom, hfail]
    · obtain ⟨j', rfl⟩ : ∃ j', j = j' + 1 := ⟨j - 1, by omega⟩
      have h0 : attemptFails (attempts i) = false := by
        have := hfirst 0 (by omega)
        rwa [Nat.add_zero] at this
      have hrec := ih (i + 1) j' (by omega)
        (by rw [show i + 1 + j' = i + (j' + 1) by omega]; exact hfail)
        (fun k hk => by
          rw [show i + 1 + k = i + (k + 1) by omega]
          exact hfirst (k + 1) (by omega))
      simp [usedFrom, h0, hrec]
      omega

/-- When every attempt of the window succeeds with status 200, the loop
accumulates the sum of the measured durations. -/
theorem pingAccum_of_all_ok (attempts : Nat → Attempt) (d : Nat → Nat) :
    ∀ n i : Nat, (∀ k < n, attempts (i + k) = Attempt.response httpStatusOK (d (i + k))) →
      pingAccum attempts i n = some (∑ k ∈ Finset.range n, d (i + k)) := by
  intro n
  induction n with
  | zero => intro i _; simp [pingAccum]
  | succ n ih =>
    intro i hall
    have h0 : attempts i = Attempt.response httpStatusOK (d i) := by
      have := hall 0 (by omega)
      rwa [Nat.add_zero] at this
    have hrec := ih (i + 1) (fun k hk => by
      rw [show i + 1 + k = i + (k + 1) by omega]
      exact hall (k + 1) (by omega))
    simp [pingAccum, h0, hrec]
    rw [Finset.sum_range_succ']
    have hidx : ∀ k, i + 1 + k = i + (k + 1) := fun k => by omega
    rw [Finset.sum_congr rfl (fun k _ => by rw [hidx k]), Nat.add_zero]
    omega

/-- Claim C3: for every endpoint and probe count, if a probe attempt fails
(request error or non-200 status) and it is the first one to do so, `ping`
produces no result for the endpoint (nothing is sent into the mirrors
channel, so the endpoint never contributes a Success), and it stops right
after the failing attempt: exactly j + 1 requests are issued, no further
attempts are performed and no partial average is computed, regardless of the
j earlier successes. -/
theorem ping_aborts_on_first_failure (l : String) (pings : Int)
    (attempts : Nat → Attempt) (j : Nat)
    (hj : j < pings.toNat)
    (hfail : attemptFails (attempts j) = true)
    (hfirst : ∀ k < j, attemptFails (attempts k) = false) :
    ping l pings attempts = none ∧ attemptsUsed pings attempts = j + 1 := by
  have hnone := pingAccum_none_of_fail attempts pings.toNat 0 j hj
    (by rwa [Nat.zero_add])
  refine ⟨by simp [ping, hnone], ?_⟩
  have := usedFrom_eq_of_first_fail attempts pings.toNat 0 j hj
    (by rwa [Nat.zero_add])
    (fun k hk => by rw [Nat.zero_add]; exact hfirst k hk)
  simpa [attemptsUsed] using this

/-- Witness for claim C3: three requested pings, the first attempt succeeds
in 5ns, the second errors: no result, and exactly 2 requests were issued. -/
theorem ping_aborts_witness :
    ping ("a") 3 (fun i => if i = 1 then Attempt.fault else Attempt.response 200 5) = none ∧
      attemptsUsed 3 (fun i => if i = 1 then Attempt.fault else Attempt.response 200 5) = 2 :=
  ping_aborts_on_first_failure ("a") 3
    (fun i => if i = 1 then Attempt.fault else Attempt.response 200 5) 1
    (by decide) (by decide) (by decide)

/-- Claim C4: for an endpoint whose P = pings probe attempts all succeed with
durations d 0, ..., d (P-1) nanoseconds (with a non-zero total), the emitted
average latency is exactly the arithmetic mean of the P measured round trips:
the sum of the per-attempt durations in seconds, divided by P. Go computes
`end.Seconds() / float64(pings)` in float64; the embedding computes it
exactly over `ℚ`. -/
theorem ping_success_average (l : String) (pings : Int)
    (attempts : Nat → Attempt) (d : Nat → Nat)
    (hp : 1 ≤ pings)
    (hall : ∀ k < pings.toNat, attempts k = Attempt.response httpStatusOK (d k))
    (hsum : ∑ k ∈ Finset.range pings.toNat, d k ≠ 0) :
    ping l pings attempts =
      some ⟨l, (∑ k ∈ Finset.range pings.toNat, nsToSeconds (d k)) / (pings.toNat : ℚ)⟩ := by
  have hacc := pingAccum_of_all_ok attempts d pings.toNat 0
    (fun k hk => by rw [Nat.zero_add]; exact hall k hk)
  simp only [Nat.zero_add] at hacc
  simp only [ping, hacc, if_neg hsum]
  congr 1
  have hcast : ((pings.toNat : ℚ)) = (pings : ℚ) := by
    have h1 : ((pings.toNat : ℤ) : ℚ) = ((pings : ℤ) : ℚ) := by
      rw [Int.toNat_of_nonneg (by omega)]
    push_cast at h1 ⊢
    exact h1
  congr 1
  simp only [nsToSeconds, Nat.cast_sum, ← Finset.sum_div, hcast]

/-- Witness for claim C4: two pings of 5ns each; the average is the mean of
the two measured durations. -/
theorem ping_average_witness :
    ping ("a") 2 (fun _ => Attempt.response 200 5) =
      some ⟨"a", (∑ k ∈ Finset.range (2 : Int).toNat, nsToSeconds 5) / (((2 : Int).toNat : ℚ))⟩ :=
  ping_success_average ("a") 2 (fun _ => Attempt.response 200 5) (fun _ => 5)
    (by decide) (by decide) (by decide)

/-- Claim C6: when all P probe attempts succeed but the accumulated total
duration is exactly zero, `ping` emits nothing into the result sink rather
than a zero-latency success. -/
theorem ping_zero_total_fails (l : String) (pings : Int)
    (attempts : Nat → Attempt) (d : Nat → Nat)
    (hp : 1 ≤ pings)
    (hall : ∀ k < pings.toNat, attempts k = Attempt.response httpStatusOK (d k))
    (hzero : ∑ k ∈ Finset.range pings.toNat, d k = 0) :
    ping l pings attempts = none := by
  have hacc := pingAccum_of_all_ok attempts d pings.toNat 0
    (fun k hk => by rw [Nat.zero_add]; exact hall k hk)
  simp only [Nat.zero_add] at hacc
  simp [ping, hacc, hzero]

/-- Witness for claim C6: one ping, a 200 response measured at 0ns: the
endpoint is dropped instead of reporting a zero average. -/
theorem ping_zero_witness :
    ping ("a") 1 (fun _ => Attempt.response 200 0) = none := by
  exact ping_zero_total_fails ("a") 1 (fun _ => Attempt.response 200 0) (fun _ => 0)
    (by decide) (by decide) (by decide)

/-- Claim C10: whatever the value of the `-pings` flag (zero and negative
included), any result `ping` emits into the result sink carries a strictly
positive average latency; with a non-positive ping count the loop never runs,
the accumulated duration stays zero and nothing is emitted at all. -/
theorem ping_emits_positive (l : String) (pings : Int) (attempts : Nat → Attempt) :
    (∀ m : Mirror, ping l pings attempts = some m → 0 < m.time) ∧
      (pings ≤ 0 → ping l pings attempts = none) := by
  constructor
  · intro m h
    unfold ping at h
    cases hacc : pingAccum attempts 0 pings.toNat with
    | none => rw [hacc] at h; simp at h
    | some endNs =>
      rw [hacc] at h
      by_cases hz : endNs = 0
      · simp [hz] at h
      · simp only [if_neg hz, Option.some.injEq] at h
        have hpos : 0 < pings := by
          by_contra hle
          have h0 : pings.toNat = 0 := by omega
          rw [h0] at hacc
          simp [pingAccum] at hacc
          exact hz hacc.symm
        have h1 : (0 : ℚ) < nsToSeconds endNs := by
          unfold nsToSeconds
          positivity
        rw [← h]
        show 0 < nsToSeconds endNs / (pings : ℚ)
        apply div_pos h1
        exact_mod_cast hpos
  · intro hle
    have h0 : pings.toNat = 0 := by omega
    simp [ping, h0, pingAccum]

/-- Witness for claim C10: one ping of 5ns yields an emitted result and its
average latency is strictly positive. -/
theorem ping_positive_witness :
    0 < (Mirror.mk ("a") (nsToSeconds 5 / ((1 : Int) : ℚ))).time :=
  (ping_emits_positive ("a") 1 (fun _ => Attempt.response 200 5)).1
    ⟨("a"), nsToSeconds 5 / ((1 : Int) : ℚ)⟩
    (by simp [ping, pingAccum, httpStatusOK])

/-- Claim C1 counterexample: the insufficiency failure does not report the
count of results actually available. Zero available successes and one
available success, both with requested count 3, produce identical failure
reports, so the report cannot carry the available count; it carries the
requested count only. -/
theorem rank_insufficient_report_counterexample :
    rank [] 3 = Except.error (insufficientMessage 3) ∧
      rank [⟨"a", 1⟩] 3 = Except.error (insufficientMessage 3) ∧
      ([] : List Mirror).length ≠ [(⟨"a", 1⟩ : Mirror)].length := by
  refine ⟨rfl, rfl, by decide⟩

/-- Claim C1 (amended): for every probe-result collection and requested count
K ≥ 1, if strictly fewer successes than K are available the ranking step
fails with the insufficiency report, which carries the requested count K (but
not the available count), and no (possibly truncated) list is returned. -/
theorem rank_insufficient_fails (ms : List Mirror) (K : Nat)
    (hK : 1 ≤ K) (h : ms.length < K) :
    rank ms K = Except.error (insufficientMessage K) := by
  simp [rank, if_pos h]

/-- Witness for the amended claim C1. -/
theorem rank_insufficient_witness :
    rank [⟨"a", 1⟩] 2 = Except.error (insufficientMessage 2) :=
  rank_insufficient_fails [⟨"a", 1⟩] 2 (by decide) (by decide)

/-- Claim C2, evaluated at a failing input of the middle `main.go` variant:
its comparator `cmp.Compare(x.duration, x.duration)` compares `x` with
itself, so with two successful results and requested count 2 the selection
keeps the input order and is not in non-decreasing latency order (the first
kept latency, 3/10, exceeds the second, 1/10). -/
theorem rankB_not_sorted :
    rankB [⟨"a", 3/10⟩, ⟨"b", 1/10⟩] 2 = [⟨"a", 3/10⟩, ⟨"b", 1/10⟩] ∧
      ¬ List.Sorted mirrorBLE (rankB [⟨"a", 3/10⟩, ⟨"b", 1/10⟩] 2) := by
  have heq : rankB [(⟨"a", 3/10⟩ : MirrorB), ⟨"b", 1/10⟩] 2 =
      [(⟨"a", 3/10⟩ : MirrorB), ⟨"b", 1/10⟩] := by
    norm_num [rankB, sortMirrorsB, List.insertionSort, List.orderedInsert,
      compareDurationSelf]
  refine ⟨heq, ?_⟩
  rw [heq]
  intro hs
  rw [List.sorted_cons] at hs
  have h1 := hs.1 ⟨"b", 1/10⟩ (by simp)
  norm_num [mirrorBLE] at h1

/-- The ranking step of the flagship variant does satisfy claim C2: with at
least K successes it returns exactly K results sorted non-decreasingly by
average latency. (Not attached to a claim; it documents that the defect of
claim C2 is specific to the middle variant's comparator.) -/
theorem rank_sorted_k (ms : List Mirror) (K : Nat) (h : K ≤ ms.length) :
    ∃ out, rank ms K = Except.ok out ∧ out.length = K ∧ List.Sorted mirrorLE out := by
  refine ⟨(sortMirrors ms).take K, ?_, ?_, ?_⟩
  · simp [rank, Nat.not_lt.mpr h]
  · have hlen : (sortMirrors ms).length = ms.length :=
      (List.perm_insertionSort mirrorLE ms).length_eq
    simp [hlen, h]
  · exact List.Pairwise.sublist (List.take_sublist _ _)
      (List.sorted_insertionSort mirrorLE ms)

/-- Claim C7: the ranking operation is deterministic; on the same probe
results in the same input order (ties included) it produces the identical
output, run after run: the selection is a pure function of the collected
result list and requested count, with no dependence on hidden state. -/
theorem rank_deterministic (ms₁ ms₂ : List Mirror) (K₁ K₂ : Nat)
    (hm : ms₁ = ms₂) (hK : K₁ = K₂) :
    rank ms₁ K₁ = rank ms₂ K₂ := by
  rw [hm, hK]

/-- Witness for claim C7, at an input with tied average latencies. -/
theorem rank_deterministic_witness :
    rank [⟨"a", 1⟩, ⟨"b", 1⟩] 1 = rank [⟨"a", 1⟩, ⟨"b", 1⟩] 1 :=
  rank_deterministic [⟨"a", 1⟩, ⟨"b", 1⟩] [⟨"a", 1⟩, ⟨"b", 1⟩] 1 1 rfl rfl

/-- Claim C9: when fewer successes than requested arrived, the tail of `main`
performs exactly one effect, the insufficiency report: no mirror line is
written to any destination, the footer is not written, and the output file is
never opened (hence neither created nor changed), whatever the `-output` flag
says and whether or not opening it would fail; the insufficiency check runs
before the output destination is opened. -/
theorem mainTail_no_output_on_insufficient (successes : List Mirror)
    (count : Nat) (outputFlag : String) (openFails : Bool)
    (h : successes.length < count) :
    mainTail successes count outputFlag openFails =
        [Effect.erroPrint (insufficientMessage count)] ∧
      (∀ p, Effect.openOutput p ∉ mainTail successes count outputFlag openFails) ∧
      (∀ m, Effect.writeMirror m ∉ mainTail successes count outputFlag openFails) ∧
      Effect.writeFooter ∉ mainTail successes count outputFlag openFails := by
  have heq : mainTail successes count outputFlag openFails =
      [Effect.erroPrint (insufficientMessage count)] := by
    simp [mainTail, if_pos h]
  refine ⟨heq, ?_, ?_, ?_⟩ <;> rw [heq] <;> simp

/-- Witness for claim C9: one success, two requested, a file destination that
would open fine: the only effect is the failure report. -/
theorem mainTail_no_output_witness :
    mainTail [⟨"a", 1⟩] 2 ("m") false = [Effect.erroPrint (insufficientMessage 2)] :=
  (mainTail_no_output_on_insufficient [⟨"a", 1⟩] 2 ("m") false (by decide)).1

/-- Claim C5 evaluated: the output path opens the file without truncation, so
a run that writes fewer bytes than the file already held leaves the tail of
the previous content in place. Previous content of two server lines,
overwritten by a single server line, yields the new line followed by the
leftover second old line — not exactly the newly emitted lines. -/
theorem writeNoTrunc_leaves_stale_tail :
    writeNoTrunc (("Server = b\nServer = c\n").toList) (("Server = a\n").toList) =
        ("Server = a\nServer = c\n").toList ∧
      ("Server = a\nServer = c\n").toList ≠ ("Server = a\n").toList := by
  refine ⟨by decide, by decide⟩

/-- Claim C8: in the old `main.go` variant, which stores results in
`map[float64]string` keyed by the measured latency, two distinct endpoints
measuring exactly the same latency collide on the key: the later assignment
overwrites the earlier, the generated output names only the later endpoint,
and the earlier one silently disappears. -/
theorem mapVariant_latency_collision (m1 m2 : String) (t maxTime : ℚ)
    (count : Nat) (hne : m1 ≠ m2) (ht : t < maxTime) (hc : 2 ≤ count) :
    variantAOutput [(m1, some t), (m2, some t)] maxTime count = [m2] ∧
      m1 ∉ variantAOutput [(m1, some t), (m2, some t)] maxTime count := by
  have h1 : ¬ t ≥ maxTime := not_le.mpr ht
  have h2 : ¬ ((0 : Nat) = count) := by omega
  have h3 : ¬ ((1 : Nat) = count) := by omega
  have heq : variantAOutput [(m1, some t), (m2, some t)] maxTime count = [m2] := by
    simp [variantAOutput, sortedMirrorsMap, buildLoop, goMapInsert, mapLookup,
      List.insertionSort, List.orderedInsert, ratLE, List.find?,
      h1, ht, h2, h3]
  exact ⟨heq, by rw [heq]; simp [hne]⟩

/-- Witness for claim C8: endpoints a and b both measure latency 1/2 with
threshold 1 and requested count 3; only b is printed, a disappears. -/
theorem mapVariant_collision_witness :
    variantAOutput [(("a"), some (1/2)), (("b"), some (1/2))] 1 3 = [("b")] ∧
      ("a") ∉ variantAOutput [(("a"), some (1/2)), (("b"), some (1/2))] 1 3 :=
  mapVariant_latency_collision ("a") ("b") (1/2) 1 3
    (by decide) (by norm_num) (by decide)
